import Mathlib

/-!
# Verification of the Social-Orbit secure storage vault

A shallow embedding of `src/social-orbit/src/utils/secureStorage.js` and of the
migration flow in the `VaultGate` component (`handleSetup`).

Modelling conventions:
* JSON-serializable values are the inductive type `Json`; `JSON.stringify` /
  `JSON.parse` round-tripping on serializable values is modelled by storing the
  structured value itself in the symbolic ciphertext.
* The Web Crypto primitives are modelled symbolically: PBKDF2 key derivation is
  a deterministic, collision-free pairing of passphrase and salt (the ideal
  model of a key-derivation function); AES-GCM is an ideal AEAD: decryption
  succeeds exactly when the key and the nonce match the ones used at
  encryption, and then yields the original plaintext.
* `crypto.getRandomValues` is modelled as an injective entropy stream: the
  `World` carries a counter `rng`, and each draw returns the current counter
  and advances it.  This models "fresh random value per call".
* `localStorage` is split into the salt cell (`saltStore`) and the legacy
  flat store (`legacy`); the two occupy disjoint key namespaces in the code
  (`socialOrbit_salt` versus the five `socialOrbit_*` legacy data keys).
* IndexedDB (`encrypted_data` object store, keyed on `key`) is the association
  list `db`; `store.put` replaces any record under the same key.
* JavaScript exceptions become an `Except VaultError` result; mutations of the
  `this` object performed before a throw survive it, so every operation
  returns the (possibly modified) storage object and world alongside the
  result.
-/

set_option autoImplicit false

namespace SocialOrbit

/-- JSON values, the plaintext space of the vault (`JSON.stringify`-able). -/
inductive Json where
  | null : Json
  | bool (b : Bool) : Json
  | num (n : Int) : Json
  | str (s : String) : Json
  | arr (xs : List Json) : Json
  | obj (fs : List (String × Json)) : Json

/-- The result of `deriveKey(passphrase, salt)` (PBKDF2-SHA256, 100000
iterations, AES-GCM 256 key).  Modelled as the ideal collision-free function
of its two inputs. -/
structure DerivedKey where
  passphrase : String
  salt : Nat
deriving DecidableEq

/-- `deriveKey` from `secureStorage.js`: deterministic in (passphrase, salt). -/
def deriveKey (passphrase : String) (salt : Nat) : DerivedKey :=
  ⟨passphrase, salt⟩

/-- Symbolic AES-GCM ciphertext: remembers the IV and key it was produced
with and the plaintext; the authentication tag check is modelled by demanding
both match at decryption time. -/
structure Ciphertext where
  ivUsed : Nat
  keyUsed : DerivedKey
  plain : Json

/-- The stored record `{ iv, data }` produced by `encrypt` (base64 fields in
the source; the encoding is injective so we keep the structured values). -/
structure EncryptedRecord where
  iv : Nat
  data : Ciphertext

/-- Association-list get: first binding wins (IndexedDB keys are unique, and
all writes below go through `alSet`, which keeps them unique). -/
def alGet {α : Type} (k : String) : List (String × α) → Option α
  | [] => none
  | (k', v) :: rest => if k' = k then some v else alGet k rest

/-- Association-list erase of every binding of `k`. -/
def alErase {α : Type} (k : String) : List (String × α) → List (String × α)
  | [] => []
  | (k', v) :: rest => if k' = k then alErase k rest else (k', v) :: alErase k rest

/-- Association-list set, replacing any previous binding (IndexedDB `put`,
and JavaScript object property assignment). -/
def alSet {α : Type} (k : String) (v : α) (l : List (String × α)) : List (String × α) :=
  (k, v) :: alErase k l

@[simp] theorem alGet_nil {α : Type} (k : String) : alGet (α := α) k [] = none := rfl

@[simp] theorem alGet_cons {α : Type} (k k' : String) (v : α) (l : List (String × α)) :
    alGet k ((k', v) :: l) = if k' = k then some v else alGet k l := rfl

@[simp] theorem alErase_nil {α : Type} (k : String) : alErase (α := α) k [] = [] := rfl

@[simp] theorem alErase_cons {α : Type} (k k' : String) (v : α) (l : List (String × α)) :
    alErase k ((k', v) :: l)
      = if k' = k then alErase k l else (k', v) :: alErase k l := rfl

theorem alGet_alErase {α : Type} (k k' : String) (l : List (String × α)) :
    alGet k (alErase k' l) = if k' = k then none else alGet k l := by
  induction l with
  | nil => simp
  | cons hd tl ih =>
    obtain ⟨a, b⟩ := hd
    by_cases h1 : a = k'
    · subst h1
      by_cases h2 : a = k
      · subst h2; simp [ih]
      · simp [ih, h2]
    · by_cases h2 : a = k
      · subst h2
        have hne : ¬a = k' := h1
        have hne' : ¬k' = a := fun hh => h1 hh.symm
        simp [hne, hne']
      · simp [h1, h2, ih]

@[simp] theorem alGet_alSet_self {α : Type} (k : String) (v : α) (l : List (String × α)) :
    alGet k (alSet k v l) = some v := by
  simp [alSet]

theorem alGet_alSet_ne {α : Type} (k k' : String) (v : α) (l : List (String × α))
    (h : k' ≠ k) : alGet k (alSet k' v l) = alGet k l := by
  simp [alSet, h, alGet_alErase]

/-- The world outside the `SecureStorage` object: the salt cell of
`localStorage`, the legacy flat `localStorage` keys, the IndexedDB object
store, the entropy counter, and the clock (`Date.now()`). -/
structure World where
  saltStore : Option Nat
  legacy : List (String × String)
  db : List (String × EncryptedRecord)
  rng : Nat
  time : Int

/-- One draw from `crypto.getRandomValues`. -/
def fresh (w : World) : Nat × World :=
  (w.rng, { w with rng := w.rng + 1 })

/-- `encrypt(data, key)`: draws a fresh 96-bit IV and produces the
`{ iv, data }` record. -/
def encrypt (data : Json) (key : DerivedKey) (w : World) : EncryptedRecord × World :=
  let (iv, w') := fresh w
  (⟨iv, ⟨iv, key, data⟩⟩, w')

/-- `decrypt(encryptedObj, key)`: the AEAD tag verifies exactly when the key
and the IV match those used at encryption; `none` models the thrown
`DecryptionError`. -/
def decrypt (record : EncryptedRecord) (key : DerivedKey) : Option Json :=
  if record.data.keyUsed = key ∧ record.data.ivUsed = record.iv then
    some record.data.plain
  else
    none

/-- The mutable fields of the `SecureStorage` class instance. -/
structure SecureStorage where
  derivedKey : Option DerivedKey
  isUnlocked : Bool
  memoryCache : List (String × Json)
  apiKeyMemory : Option String

/-- The freshly constructed singleton (`new SecureStorage()`). -/
def SecureStorage.init : SecureStorage :=
  { derivedKey := none, isUnlocked := false, memoryCache := [], apiKeyMemory := none }

/-- The distinct error messages thrown by `secureStorage.js`. -/
inductive VaultError where
  /-- `"Passphrase must be at least 4 characters"` (WeakPassphraseError). -/
  | weakPassphrase : VaultError
  /-- `"Incorrect passphrase"` (IncorrectPassphraseError). -/
  | incorrectPassphrase : VaultError
  /-- `"Vault is locked"` (VaultLockedError). -/
  | vaultLocked : VaultError
  /-- `"Current passphrase is incorrect"` thrown by `changePassphrase`. -/
  | currentPassphraseIncorrect : VaultError
  /-- `"New passphrase must be at least 4 characters"` thrown by `changePassphrase`. -/
  | weakNewPassphrase : VaultError
deriving DecidableEq, Repr

/-- Reserved IndexedDB key of the verification token. -/
def vaultCheckKey : String := "_vault_check"

/-- Placeholder for the impossible `this.derivedKey === null` read while
unlocked (calling Web Crypto with a null key would throw; the states reached
through the API always hold a key while unlocked). -/
def nullKey : DerivedKey := ⟨"", 0⟩

/-- `getSalt()`: read the stored salt, generating and persisting one if
absent. -/
def getSalt (w : World) : Nat × World :=
  match w.saltStore with
  | some s => (s, w)
  | none =>
      let (s, w') := fresh w
      (s, { w' with saltStore := some s })

/-- The plaintext of the verification token:
`{ verified: true, timestamp: Date.now() }`. -/
def verificationPlain (t : Int) : Json :=
  .obj [("verified", .bool true), ("timestamp", .num t)]

/-- `vaultExists()`: the verification token is present. -/
def vaultExists (w : World) : Bool :=
  (alGet vaultCheckKey w.db).isSome

/-- `initializeVault(passphrase)`. -/
def initializeVault (passphrase : String) (st : SecureStorage) (w : World) :
    Except VaultError Bool × SecureStorage × World :=
  if passphrase.length < 4 then
    (.error .weakPassphrase, st, w)
  else
    let (salt, w1) := getSalt w
    let key := deriveKey passphrase salt
    let st1 := { st with derivedKey := some key, isUnlocked := true }
    let (record, w2) := encrypt (verificationPlain w1.time) key w1
    (.ok true, st1, { w2 with db := alSet vaultCheckKey record w2.db })

/-- `unlock(passphrase)`.  Both the missing-token case (`"Vault not initialized"`) and the failed decryption are caught by the surrounding
`try`/`catch`, which clears the key and rethrows `"Incorrect passphrase"`. -/
def unlock (passphrase : String) (st : SecureStorage) (w : World) :
    Except VaultError Bool × SecureStorage × World :=
  let (salt, w1) := getSalt w
  let key := deriveKey passphrase salt
  match alGet vaultCheckKey w1.db with
  | none =>
      (.error .incorrectPassphrase,
        { st with derivedKey := none, isUnlocked := false }, w1)
  | some record =>
      match decrypt record key with
      | some _ =>
          (.ok true,
            { st with derivedKey := some key, isUnlocked := true, memoryCache := [] }, w1)
      | none =>
          (.error .incorrectPassphrase,
            { st with derivedKey := none, isUnlocked := false }, w1)

/-- `lock()`. -/
def lock (st : SecureStorage) : SecureStorage :=
  { st with
      derivedKey := none
      isUnlocked := false
      memoryCache := []
      apiKeyMemory := none }

/-- `setItem(key, value)`. -/
def setItem (key : String) (value : Json) (st : SecureStorage) (w : World) :
    Except VaultError Unit × SecureStorage × World :=
  if st.isUnlocked then
    let (record, w1) := encrypt value (st.derivedKey.getD nullKey) w
    (.ok (), { st with memoryCache := alSet key value st.memoryCache },
      { w1 with db := alSet key record w1.db })
  else
    (.error .vaultLocked, st, w)

/-- `getItem(key)`: cache hit, miss-and-decrypt (caching the result), absent
key (`null`), or swallowed decryption failure (`console.error` + `null`). -/
def getItem (key : String) (st : SecureStorage) (w : World) :
    Except VaultError (Option Json) × SecureStorage × World :=
  if st.isUnlocked then
    match alGet key st.memoryCache with
    | some v => (.ok (some v), st, w)
    | none =>
        match alGet key w.db with
        | none => (.ok none, st, w)
        | some record =>
            match decrypt record (st.derivedKey.getD nullKey) with
            | some v =>
                (.ok (some v), { st with memoryCache := alSet key v st.memoryCache }, w)
            | none => (.ok none, st, w)
  else
    (.error .vaultLocked, st, w)

/-- `removeItem(key)`. -/
def removeItem (key : String) (st : SecureStorage) (w : World) :
    Except VaultError Unit × SecureStorage × World :=
  if st.isUnlocked then
    (.ok (), { st with memoryCache := alErase key st.memoryCache },
      { w with db := alErase key w.db })
  else
    (.error .vaultLocked, st, w)

/-- `setApiKey(key)`: memory only. -/
def setApiKey (key : String) (st : SecureStorage) : SecureStorage :=
  { st with apiKeyMemory := some key }

/-- `getApiKey()`. -/
def getApiKey (st : SecureStorage) : Option String :=
  st.apiKeyMemory

/-- `clearApiKey()`. -/
def clearApiKey (st : SecureStorage) : SecureStorage :=
  { st with apiKeyMemory := none }

/-- The decryption loop of `changePassphrase`: walk `getAllKeys()`, skip the
reserved key, decrypt each record under the old key into the `decryptedData`
object (a failed decryption is logged with `console.warn` and skipped). -/
def collectDecrypted (dbl : List (String × EncryptedRecord)) (oldKey : DerivedKey) :
    List String → List (String × Json) → List (String × Json)
  | [], acc => acc
  | key :: rest, acc =>
      if key = vaultCheckKey then
        collectDecrypted dbl oldKey rest acc
      else
        match alGet key dbl with
        | none => collectDecrypted dbl oldKey rest acc
        | some record =>
            match decrypt record oldKey with
            | none => collectDecrypted dbl oldKey rest acc
            | some v => collectDecrypted dbl oldKey rest (alSet key v acc)

/-- The re-encryption loop of `changePassphrase`: encrypt every collected
entry under the new key and `put` it back. -/
def writeAllEncrypted (key : DerivedKey) :
    List (String × Json) → World → World
  | [], w => w
  | (k, v) :: rest, w =>
      let (record, w1) := encrypt v key w
      writeAllEncrypted key rest { w1 with db := alSet k record w1.db }

/-- `changePassphrase(currentPassphrase, newPassphrase)`.  A missing
verification token makes `decrypt(undefined, oldKey)` throw inside the
`try`, so it surfaces as `"Current passphrase is incorrect"` too. -/
def changePassphrase (currentPassphrase newPassphrase : String)
    (st : SecureStorage) (w : World) :
    Except VaultError Bool × SecureStorage × World :=
  let (salt, w1) := getSalt w
  let oldKey := deriveKey currentPassphrase salt
  match alGet vaultCheckKey w1.db with
  | none => (.error .currentPassphraseIncorrect, st, w1)
  | some record =>
      match decrypt record oldKey with
      | none => (.error .currentPassphraseIncorrect, st, w1)
      | some _ =>
          if newPassphrase.length < 4 then
            (.error .weakNewPassphrase, st, w1)
          else
            let allKeys := w1.db.map Prod.fst
            let decryptedData := collectDecrypted w1.db oldKey allKeys []
            let (newSalt, w2) := fresh w1
            let w3 := { w2 with saltStore := some newSalt }
            let newKey := deriveKey newPassphrase newSalt
            let st1 := { st with derivedKey := some newKey }
            let (newVerification, w4) := encrypt (verificationPlain w3.time) newKey w3
            let w5 := { w4 with db := alSet vaultCheckKey newVerification w4.db }
            let w6 := writeAllEncrypted newKey decryptedData w5
            (.ok true, { st1 with memoryCache := decryptedData }, w6)

/-- `destroyVault()`: clear the object store, remove the salt, lock. -/
def destroyVault (st : SecureStorage) (w : World) : SecureStorage × World :=
  (lock st, { w with db := [], saltStore := none })

/-! ## Legacy migration (`migrateFromLocalStorage`, `clearOldLocalStorage`,
and the `VaultGate.handleSetup` flow that drives them) -/

def legacyFriendsKey : String := "socialOrbit_friends"
def legacyPersonaKey : String := "socialOrbit_persona"
def legacyFormDataKey : String := "socialOrbit_formData"
def legacyMockModeKey : String := "socialOrbit_mockMode"
def legacyApiKeyKey : String := "socialOrbit_apiKey"

/-- The `keysToMigrate` table of `migrateFromLocalStorage`. -/
def keysToMigrate : List (String × String) :=
  [(legacyFriendsKey, "friends"), (legacyPersonaKey, "persona"),
   (legacyFormDataKey, "formData"), (legacyMockModeKey, "mockMode")]

/-- JavaScript string truthiness (`if (data)`): present and non-empty. -/
def truthy : Option String → Bool
  | none => false
  | some s => s ≠ ""

/-- The migration loop: for each table entry with truthy legacy data, store
`JSON.parse(data)`, falling back to the raw string when parsing throws.
`parse` stands for the platform `JSON.parse` (`none` = throw). -/
def migrateValues (parse : String → Option Json) (legacy : List (String × String)) :
    List (String × String) → List (String × Json) → List (String × Json)
  | [], acc => acc
  | (old, newKey) :: rest, acc =>
      match alGet old legacy with
      | none => migrateValues parse legacy rest acc
      | some d =>
          if d = "" then migrateValues parse legacy rest acc
          else migrateValues parse legacy rest (alSet newKey ((parse d).getD (.str d)) acc)

/-- `migrateFromLocalStorage()`: returns `{ data, apiKey }`; the API key is
only returned, never persisted. -/
def migrateFromLocalStorage (parse : String → Option Json) (w : World) :
    List (String × Json) × Option String :=
  (migrateValues parse w.legacy keysToMigrate [], alGet legacyApiKeyKey w.legacy)

/-- `clearOldLocalStorage()`: remove the five legacy keys (including the
plaintext API key). -/
def clearOldLocalStorage (w : World) : World :=
  { w with legacy :=
      alErase legacyApiKeyKey (alErase legacyMockModeKey (alErase legacyFormDataKey
        (alErase legacyPersonaKey (alErase legacyFriendsKey w.legacy)))) }

/-- The legacy-data probe of `checkVaultStatus`:
`localStorage.getItem("socialOrbit_friends") || localStorage.getItem("socialOrbit_persona")`. -/
def hasOldData (w : World) : Bool :=
  truthy (alGet legacyFriendsKey w.legacy) || truthy (alGet legacyPersonaKey w.legacy)

/-- The `for`-loop in `handleSetup` writing each migrated entry through
`setItem`; a thrown error aborts the loop (caught by `handleSetup`). -/
def setItemsAll : List (String × Json) → SecureStorage → World →
    Except VaultError Unit × SecureStorage × World
  | [], st, w => (.ok (), st, w)
  | (k, v) :: rest, st, w =>
      match setItem k v st w with
      | (.ok _, st1, w1) => setItemsAll rest st1 w1
      | (.error e, st1, w1) => (.error e, st1, w1)

/-- `VaultGate.handleSetup` (the vault-facing part, after the local UI
passphrase-confirmation checks): initialize the vault, write every migrated
value through `setItem`, hold the legacy API key in memory only, and clear
the legacy store last.  `migrationData` was computed by `checkVaultStatus`
from the same legacy store before setup.  Any throw aborts before the
purge. -/
def handleSetup (parse : String → Option Json) (passphrase : String)
    (st : SecureStorage) (w : World) :
    Except VaultError Unit × SecureStorage × World :=
  let migrationData :=
    if hasOldData w then some (migrateFromLocalStorage parse w) else none
  match initializeVault passphrase st w with
  | (.error e, st1, w1) => (.error e, st1, w1)
  | (.ok _, st1, w1) =>
      match migrationData with
      | none => (.ok (), st1, w1)
      | some (data, apiKey) =>
          match setItemsAll data st1 w1 with
          | (.error e, st2, w2) => (.error e, st2, w2)
          | (.ok _, st2, w2) =>
              let st3 :=
                if truthy apiKey then setApiKey (apiKey.getD "") st2 else st2
              (.ok (), st3, clearOldLocalStorage w2)

/-! ## Claim theorems -/

/-- C6: for every JSON-serializable value `v` and every derived key `k`,
decrypting the EncryptedRecord produced by `encrypt(v, k)` with the same key
`k` yields the original value `v`. -/
theorem decrypt_encrypt_roundtrip (v : Json) (k : DerivedKey) (w : World) :
    decrypt (encrypt v k w).1 k = some v := by
  simp [encrypt, decrypt, fresh]

/-- C7: every `encrypt` call draws a fresh value from the entropy stream as
its 96-bit nonce (the call returns the current stream position and advances
it, so no position — hence no nonce — is ever used twice with any key), and
encrypting the same value twice with the same key yields records with
different nonces and different ciphertexts. -/
theorem encrypt_fresh_nonce (v v2 : Json) (k : DerivedKey) (w : World) :
    (encrypt v k w).1.iv = w.rng ∧
    (encrypt v k w).2.rng = w.rng + 1 ∧
    (encrypt v k w).1.iv ≠ (encrypt v2 k (encrypt v k w).2).1.iv ∧
    (encrypt v k w).1.data ≠ (encrypt v2 k (encrypt v k w).2).1.data := by
  refine ⟨rfl, rfl, by simp [encrypt, fresh], ?_⟩
  intro h
  have hiv := congrArg Ciphertext.ivUsed h
  simp [encrypt, fresh] at hiv

/-- C10: unlocking a vault whose verification token was never stored throws
the same `"Incorrect passphrase"` error as a wrong passphrase does, and
leaves no derived key and the vault locked. -/
theorem unlock_uninitialized (p : String) (st : SecureStorage) (w : World)
    (h : alGet vaultCheckKey w.db = none) :
    (unlock p st w).1 = .error .incorrectPassphrase ∧
    (unlock p st w).2.1.derivedKey = none ∧
    (unlock p st w).2.1.isUnlocked = false := by
  cases hs : w.saltStore <;>
    simp [unlock, getSalt, fresh, hs, h]

/-- Closed witness for `unlock_uninitialized`. -/
theorem unlock_uninitialized_witness :
    (unlock "pw" SecureStorage.init ⟨some 7, [], [], 0, 0⟩).1
      = .error .incorrectPassphrase ∧
    (unlock "pw" SecureStorage.init ⟨some 7, [], [], 0, 0⟩).2.1.derivedKey = none ∧
    (unlock "pw" SecureStorage.init ⟨some 7, [], [], 0, 0⟩).2.1.isUnlocked = false :=
  unlock_uninitialized "pw" SecureStorage.init ⟨some 7, [], [], 0, 0⟩ rfl

/-- C1: after `initializeVault(A)` (with a valid passphrase `A`), a call
`unlock(B)` with `B ≠ A` always throws `"Incorrect passphrase"` and leaves
the vault locked with the derived key cleared. -/
theorem unlock_wrong_passphrase (A B : String) (st : SecureStorage) (w : World)
    (hlen : ¬A.length < 4) (hne : A ≠ B) :
    (initializeVault A st w).1 = .ok true ∧
    (unlock B (initializeVault A st w).2.1 (initializeVault A st w).2.2).1
      = .error .incorrectPassphrase ∧
    (unlock B (initializeVault A st w).2.1
      (initializeVault A st w).2.2).2.1.derivedKey = none ∧
    (unlock B (initializeVault A st w).2.1
      (initializeVault A st w).2.2).2.1.isUnlocked = false := by
  cases hs : w.saltStore <;>
    simp [initializeVault, unlock, getSalt, fresh, encrypt, decrypt, deriveKey,
      hlen, hs, vaultCheckKey, hne]

/-- Closed witness for `unlock_wrong_passphrase`. -/
theorem unlock_wrong_passphrase_witness :
    (initializeVault "pass" SecureStorage.init ⟨none, [], [], 0, 0⟩).1 = .ok true ∧
    (unlock "wrong"
      (initializeVault "pass" SecureStorage.init ⟨none, [], [], 0, 0⟩).2.1
      (initializeVault "pass" SecureStorage.init ⟨none, [], [], 0, 0⟩).2.2).1
        = .error .incorrectPassphrase ∧
    (unlock "wrong"
      (initializeVault "pass" SecureStorage.init ⟨none, [], [], 0, 0⟩).2.1
      (initializeVault "pass" SecureStorage.init ⟨none, [], [], 0, 0⟩).2.2).2.1.derivedKey
        = none ∧
    (unlock "wrong"
      (initializeVault "pass" SecureStorage.init ⟨none, [], [], 0, 0⟩).2.1
      (initializeVault "pass" SecureStorage.init ⟨none, [], [], 0, 0⟩).2.2).2.1.isUnlocked
        = false :=
  unlock_wrong_passphrase "pass" "wrong" SecureStorage.init ⟨none, [], [], 0, 0⟩
    (by decide) (by decide)

/-- C3: `lock()` discards the derived key, the plaintext cache and the API
credential; `setItem`/`getItem`/`removeItem` on the locked vault throw
`"Vault is locked"`; and a subsequent `unlock` holds either a key freshly
derived from the supplied passphrase and the stored salt, or no key at all —
never a key left over from before the lock. -/
theorem lock_clears_secrets (st : SecureStorage) (w : World) (k p : String) (v : Json) :
    (lock st).derivedKey = none ∧
    (lock st).isUnlocked = false ∧
    (lock st).memoryCache = [] ∧
    (lock st).apiKeyMemory = none ∧
    (setItem k v (lock st) w).1 = .error .vaultLocked ∧
    (getItem k (lock st) w).1 = .error .vaultLocked ∧
    (removeItem k (lock st) w).1 = .error .vaultLocked ∧
    ((unlock p (lock st) w).2.1.derivedKey = some (deriveKey p (getSalt w).1) ∨
      (unlock p (lock st) w).2.1.derivedKey = none) := by
  refine ⟨rfl, rfl, rfl, rfl, by simp [setItem, lock], by simp [getItem, lock],
    by simp [removeItem, lock], ?_⟩
  unfold unlock
  cases hget : alGet vaultCheckKey ((getSalt w).2).db with
  | none => simp [hget]
  | some record =>
      cases hdec : decrypt record (deriveKey p (getSalt w).1) with
      | none => simp [hget, hdec]
      | some jv => simp [hget, hdec]

/-- C5: `getItem` on a locked vault throws; on an unlocked vault it returns
the cached plaintext when present (no state change), returns `null` for a
never-set key, decrypts-and-caches on a cache miss, and swallows a failed
decryption of a non-reserved record as `null` instead of throwing. -/
theorem getItem_cases (st : SecureStorage) (w : World) (k : String)
    (r : EncryptedRecord) (v : Json) :
    (st.isUnlocked = false → (getItem k st w).1 = .error .vaultLocked) ∧
    (st.isUnlocked = true → alGet k st.memoryCache = some v →
      getItem k st w = (.ok (some v), st, w)) ∧
    (st.isUnlocked = true → alGet k st.memoryCache = none → alGet k w.db = none →
      getItem k st w = (.ok none, st, w)) ∧
    (st.isUnlocked = true → alGet k st.memoryCache = none → alGet k w.db = some r →
      decrypt r (st.derivedKey.getD nullKey) = some v →
      getItem k st w
        = (.ok (some v), { st with memoryCache := alSet k v st.memoryCache }, w)) ∧
    (st.isUnlocked = true → alGet k st.memoryCache = none → alGet k w.db = some r →
      decrypt r (st.derivedKey.getD nullKey) = none →
      getItem k st w = (.ok none, st, w)) := by
  refine ⟨fun h => by simp [getItem, h], fun h hc => by simp [getItem, h, hc],
    fun h hc hd => by simp [getItem, h, hc, hd],
    fun h hc hd hdec => by simp [getItem, h, hc, hd, hdec],
    fun h hc hd hdec => by simp [getItem, h, hc, hd, hdec]⟩

/-- Closed witness for `getItem_cases`: the locked-vault guard and the
cache-hit case, each at a concrete input. -/
theorem getItem_cases_witness :
    (getItem "friends" SecureStorage.init ⟨none, [], [], 0, 0⟩).1
      = .error .vaultLocked ∧
    getItem "friends"
        ⟨some (deriveKey "pw" 3), true, [("friends", Json.num 1)], none⟩
        ⟨some 3, [], [], 0, 0⟩
      = (.ok (some (Json.num 1)),
          ⟨some (deriveKey "pw" 3), true, [("friends", Json.num 1)], none⟩,
          ⟨some 3, [], [], 0, 0⟩) :=
  ⟨(getItem_cases SecureStorage.init ⟨none, [], [], 0, 0⟩ "friends"
      ⟨0, ⟨0, deriveKey "pw" 3, Json.null⟩⟩ Json.null).1 rfl,
    (getItem_cases ⟨some (deriveKey "pw" 3), true, [("friends", Json.num 1)], none⟩
      ⟨some 3, [], [], 0, 0⟩ "friends"
      ⟨0, ⟨0, deriveKey "pw" 3, Json.null⟩⟩ (Json.num 1)).2.1 rfl rfl⟩

/-- C8: `initializeVault` rejects a passphrase shorter than 4 characters
with `"Passphrase must be at least 4 characters"` and changes nothing; with
a long-enough passphrase it succeeds, leaves the vault unlocked holding the
derived key, persists the salt, and stores a verification token decryptable
under that key.  `changePassphrase` likewise rejects a too-short new
passphrase (after verifying the current one) with no state change. -/
theorem weak_passphrase_guards (p cur new : String) (st : SecureStorage) (w : World)
    (s : Nat) (vr : EncryptedRecord) (jv : Json) :
    (p.length < 4 → initializeVault p st w = (.error .weakPassphrase, st, w)) ∧
    (¬p.length < 4 →
      (initializeVault p st w).1 = .ok true ∧
      (initializeVault p st w).2.1.isUnlocked = true ∧
      (initializeVault p st w).2.1.derivedKey = some (deriveKey p (getSalt w).1) ∧
      (initializeVault p st w).2.2.saltStore = some (getSalt w).1 ∧
      (alGet vaultCheckKey (initializeVault p st w).2.2.db).map
          (fun record => decrypt record (deriveKey p (getSalt w).1))
        = some (some (verificationPlain w.time))) ∧
    (w.saltStore = some s → alGet vaultCheckKey w.db = some vr →
      decrypt vr (deriveKey cur s) = some jv → new.length < 4 →
      changePassphrase cur new st w = (.error .weakNewPassphrase, st, w)) := by
  refine ⟨fun h => by simp [initializeVault, h], fun h => ?_, fun hs hvr hdec hlen => ?_⟩
  · cases hs : w.saltStore <;>
      simp [initializeVault, getSalt, fresh, encrypt, decrypt, hs, h]
  · simp [changePassphrase, getSalt, hs, hvr, hdec, hlen]

/-- Closed witness for `weak_passphrase_guards`: the weak-passphrase
rejection of `initializeVault` and of `changePassphrase`, at concrete
inputs. -/
theorem weak_passphrase_guards_witness :
    initializeVault "abc" SecureStorage.init ⟨none, [], [], 0, 0⟩
      = (.error .weakPassphrase, SecureStorage.init, ⟨none, [], [], 0, 0⟩) ∧
    changePassphrase "pw" "ab" SecureStorage.init
        ⟨some 3, [], [(vaultCheckKey, ⟨0, ⟨0, deriveKey "pw" 3, Json.null⟩⟩)], 5, 0⟩
      = (.error .weakNewPassphrase, SecureStorage.init,
          ⟨some 3, [], [(vaultCheckKey, ⟨0, ⟨0, deriveKey "pw" 3, Json.null⟩⟩)], 5, 0⟩) :=
  ⟨(weak_passphrase_guards "abc" "c" "c" SecureStorage.init ⟨none, [], [], 0, 0⟩
      0 ⟨0, ⟨0, deriveKey "pw" 3, Json.null⟩⟩ Json.null).1 (by decide),
    (weak_passphrase_guards "abc" "pw" "ab" SecureStorage.init
      ⟨some 3, [], [(vaultCheckKey, ⟨0, ⟨0, deriveKey "pw" 3, Json.null⟩⟩)], 5, 0⟩
      3 ⟨0, ⟨0, deriveKey "pw" 3, Json.null⟩⟩ Json.null).2.2 rfl (by simp [alGet])
      (by simp [decrypt, deriveKey]) (by decide)⟩

/-! ## Auxiliary lemmas about the bulk loops -/

theorem alGet_eq_none_of_not_mem {α : Type} (k : String) (l : List (String × α))
    (h : k ∉ l.map Prod.fst) : alGet k l = none := by
  induction l with
  | nil => rfl
  | cons hd tl ih =>
      obtain ⟨a, b⟩ := hd
      simp only [List.map_cons, List.mem_cons] at h
      push_neg at h
      rw [alGet_cons, if_neg (Ne.symm h.1)]
      exact ih h.2

theorem mem_map_fst_of_alGet {α : Type} (k : String) (l : List (String × α)) (v : α)
    (h : alGet k l = some v) : k ∈ l.map Prod.fst := by
  induction l with
  | nil => simp [alGet] at h
  | cons hd tl ih =>
      obtain ⟨a, b⟩ := hd
      by_cases ha : a = k
      · simp [ha]
      · simp only [alGet_cons, ha, if_false] at h
        simp [ih h]

theorem alErase_sublist {α : Type} (k : String) (l : List (String × α)) :
    (alErase k l).Sublist l := by
  induction l with
  | nil => simp
  | cons hd tl ih =>
      obtain ⟨a, b⟩ := hd
      by_cases ha : a = k
      · rw [alErase_cons, if_pos ha]
        exact ih.trans (List.sublist_cons_self _ _)
      · rw [alErase_cons, if_neg ha]
        exact ih.cons₂ (a, b)

theorem not_mem_alErase_map_fst {α : Type} (k : String) (l : List (String × α)) :
    k ∉ (alErase k l).map Prod.fst := by
  induction l with
  | nil => simp
  | cons hd tl ih =>
      obtain ⟨a, b⟩ := hd
      by_cases ha : a = k
      · rw [alErase_cons, if_pos ha]
        exact ih
      · rw [alErase_cons, if_neg ha]
        simp only [List.map_cons, List.mem_cons]
        rintro (h | h)
        · exact ha h.symm
        · exact ih h

theorem alSet_map_fst_nodup {α : Type} (k : String) (v : α) (l : List (String × α))
    (h : (l.map Prod.fst).Nodup) : ((alSet k v l).map Prod.fst).Nodup := by
  simp only [alSet, List.map_cons, List.nodup_cons]
  exact ⟨not_mem_alErase_map_fst k l, (((alErase_sublist k l).map Prod.fst).nodup h)⟩

/-- Values collected by the `changePassphrase` decryption loop: any key of
the scanned database whose record decrypts under the old key ends up bound
to that plaintext. -/
theorem alGet_collectDecrypted (dbl : List (String × EncryptedRecord))
    (oldKey : DerivedKey) (keys : List String) (acc : List (String × Json))
    (k : String) (r : EncryptedRecord) (v : Json)
    (hk : ¬k = vaultCheckKey) (hdb : alGet k dbl = some r)
    (hdec : decrypt r oldKey = some v)
    (hstart : alGet k acc = some v ∨ k ∈ keys) :
    alGet k (collectDecrypted dbl oldKey keys acc) = some v := by
  induction keys generalizing acc with
  | nil =>
      rcases hstart with h | h
      · simpa [collectDecrypted] using h
      · simp at h
  | cons key rest ih =>
      by_cases hkey : key = vaultCheckKey
      · rw [collectDecrypted, if_pos hkey]
        refine ih acc ?_
        rcases hstart with h | h
        · exact .inl h
        · rcases List.mem_cons.mp h with h | h
          · exact absurd (h ▸ hkey) hk
          · exact .inr h
      · by_cases hkk : key = k
        · subst hkk
          simp only [collectDecrypted, if_neg hkey, hdb, hdec]
          exact ih _ (.inl (alGet_alSet_self _ _ _))
        · have hrest : alGet k acc = some v ∨ k ∈ rest := by
            rcases hstart with h | h
            · exact .inl h
            · rcases List.mem_cons.mp h with h | h
              · exact absurd h.symm hkk
              · exact .inr h
          cases hget : alGet key dbl with
          | none =>
              simp only [collectDecrypted, if_neg hkey, hget]
              exact ih acc hrest
          | some record =>
              cases hdecr : decrypt record oldKey with
              | none =>
                  simp only [collectDecrypted, if_neg hkey, hget, hdecr]
                  exact ih acc hrest
              | some u =>
                  simp only [collectDecrypted, if_neg hkey, hget, hdecr]
                  refine ih _ ?_
                  rcases hrest with h | h
                  · exact .inl (by rw [alGet_alSet_ne _ _ _ _ hkk]; exact h)
                  · exact .inr h

/-- The decryption loop never binds the reserved verification key. -/
theorem collectDecrypted_vaultCheck_none (dbl : List (String × EncryptedRecord))
    (oldKey : DerivedKey) (keys : List String) (acc : List (String × Json))
    (hacc : alGet vaultCheckKey acc = none) :
    alGet vaultCheckKey (collectDecrypted dbl oldKey keys acc) = none := by
  induction keys generalizing acc with
  | nil => simpa [collectDecrypted] using hacc
  | cons key rest ih =>
      by_cases hkey : key = vaultCheckKey
      · rw [collectDecrypted, if_pos hkey]; exact ih acc hacc
      · cases hget : alGet key dbl with
        | none =>
            simp only [collectDecrypted, if_neg hkey, hget]
            exact ih acc hacc
        | some record =>
            cases hdecr : decrypt record oldKey with
            | none =>
                simp only [collectDecrypted, if_neg hkey, hget, hdecr]
                exact ih acc hacc
            | some u =>
                simp only [collectDecrypted, if_neg hkey, hget, hdecr]
                refine ih _ ?_
                rw [alGet_alSet_ne _ _ _ _ hkey]; exact hacc

/-- The decryption loop keeps the collected keys duplicate-free. -/
theorem collectDecrypted_nodup (dbl : List (String × EncryptedRecord))
    (oldKey : DerivedKey) (keys : List String) (acc : List (String × Json))
    (hacc : (acc.map Prod.fst).Nodup) :
    ((collectDecrypted dbl oldKey keys acc).map Prod.fst).Nodup := by
  induction keys generalizing acc with
  | nil => simpa [collectDecrypted] using hacc
  | cons key rest ih =>
      by_cases hkey : key = vaultCheckKey
      · rw [collectDecrypted, if_pos hkey]; exact ih acc hacc
      · cases hget : alGet key dbl with
        | none =>
            simp only [collectDecrypted, if_neg hkey, hget]
            exact ih acc hacc
        | some record =>
            cases hdecr : decrypt record oldKey with
            | none =>
                simp only [collectDecrypted, if_neg hkey, hget, hdecr]
                exact ih acc hacc
            | some u =>
                simp only [collectDecrypted, if_neg hkey, hget, hdecr]
                exact ih _ (alSet_map_fst_nodup _ _ _ hacc)

/-- Keys the re-encryption loop does not write keep their stored record. -/
theorem writeAllEncrypted_absent (key : DerivedKey) (entries : List (String × Json))
    (w : World) (k : String) (h : alGet k entries = none) :
    alGet k (writeAllEncrypted key entries w).db = alGet k w.db := by
  induction entries generalizing w with
  | nil => rfl
  | cons hd rest ih =>
      obtain ⟨a, v⟩ := hd
      simp only [alGet_cons] at h
      by_cases ha : a = k
      · simp [ha] at h
      · rw [if_neg ha] at h
        rw [writeAllEncrypted, ih _ h]
        exact alGet_alSet_ne _ _ _ _ ha

/-- The re-encryption loop leaves every non-database field of the world
untouched except the entropy counter. -/
theorem writeAllEncrypted_frame (key : DerivedKey) (entries : List (String × Json))
    (w : World) :
    (writeAllEncrypted key entries w).saltStore = w.saltStore ∧
    (writeAllEncrypted key entries w).legacy = w.legacy ∧
    (writeAllEncrypted key entries w).time = w.time := by
  induction entries generalizing w with
  | nil => exact ⟨rfl, rfl, rfl⟩
  | cons hd rest ih =>
      obtain ⟨a, v⟩ := hd
      rw [writeAllEncrypted]
      exact ih _

/-- Every entry written by the re-encryption loop is afterwards stored as a
record that decrypts to its plaintext under the new key. -/
theorem writeAllEncrypted_hit (key : DerivedKey) (entries : List (String × Json))
    (w : World) (k : String) (v : Json)
    (hnd : (entries.map Prod.fst).Nodup) (h : alGet k entries = some v) :
    ∃ record, alGet k (writeAllEncrypted key entries w).db = some record ∧
      decrypt record key = some v := by
  induction entries generalizing w with
  | nil => simp [alGet] at h
  | cons hd rest ih =>
      obtain ⟨a, u⟩ := hd
      simp only [List.map_cons, List.nodup_cons] at hnd
      by_cases ha : a = k
      · subst ha
        rw [alGet_cons, if_pos rfl] at h
        injection h with h
        subst h
        have hrest : alGet a rest = none :=
          alGet_eq_none_of_not_mem _ _ hnd.1
        rw [writeAllEncrypted]
        rw [writeAllEncrypted_absent _ _ _ _ hrest]
        refine ⟨_, alGet_alSet_self _ _ _, ?_⟩
        simp [encrypt, decrypt, fresh]
      · rw [alGet_cons, if_neg ha] at h
        rw [writeAllEncrypted]
        exact ih _ hnd.2 h

/-- Unfolding of a successful `changePassphrase` call: with the stored salt
present, a verification token that decrypts under the current passphrase,
and a long-enough new passphrase, the call returns `true`, installs the key
derived from the new passphrase and the regenerated salt, caches the
decrypted data, and re-encrypts everything on top of the world holding the
new salt and the new verification token. -/
theorem changePassphrase_eq (old new : String) (st : SecureStorage) (w : World)
    (s : Nat) (vr : EncryptedRecord) (jv : Json)
    (hsalt : w.saltStore = some s)
    (hvr : alGet vaultCheckKey w.db = some vr)
    (hvrdec : decrypt vr (deriveKey old s) = some jv)
    (hlen : ¬new.length < 4) :
    changePassphrase old new st w
      = (.ok true,
          ⟨some (deriveKey new w.rng), st.isUnlocked,
            collectDecrypted w.db (deriveKey old s) (w.db.map Prod.fst) [],
            st.apiKeyMemory⟩,
          writeAllEncrypted (deriveKey new w.rng)
            (collectDecrypted w.db (deriveKey old s) (w.db.map Prod.fst) [])
            ⟨some w.rng, w.legacy,
              alSet vaultCheckKey
                ⟨w.rng + 1, ⟨w.rng + 1, deriveKey new w.rng, verificationPlain w.time⟩⟩
                w.db,
              w.rng + 1 + 1, w.time⟩) := by
  simp [changePassphrase, getSalt, hsalt, hvr, hvrdec, hlen, encrypt, fresh]

/-- After the re-encryption loop has run over a world whose salt is the new
salt and whose verification token is bound to the new key, unlocking with
the new passphrase succeeds and `getItem` recovers every collected value,
while unlocking with any other passphrase fails. -/
theorem rotation_endgame (newPass oldPass : String) (stB : SecureStorage) (w5 : World)
    (D : List (String × Json)) (nSalt : Nat) (k : String) (v : Json)
    (tok : EncryptedRecord)
    (hsaltW : w5.saltStore = some nSalt)
    (htok : alGet vaultCheckKey w5.db = some tok)
    (htokkey : tok.data.keyUsed = deriveKey newPass nSalt)
    (htokiv : tok.data.ivUsed = tok.iv)
    (hDvc : alGet vaultCheckKey D = none)
    (hDnodup : (D.map Prod.fst).Nodup)
    (hDk : alGet k D = some v)
    (hne : oldPass ≠ newPass) :
    (unlock newPass stB (writeAllEncrypted (deriveKey newPass nSalt) D w5)).1
      = .ok true ∧
    (getItem k
        (unlock newPass stB (writeAllEncrypted (deriveKey newPass nSalt) D w5)).2.1
        (unlock newPass stB (writeAllEncrypted (deriveKey newPass nSalt) D w5)).2.2).1
      = .ok (some v) ∧
    (unlock oldPass stB (writeAllEncrypted (deriveKey newPass nSalt) D w5)).1
      = .error .incorrectPassphrase := by
  have hfr := writeAllEncrypted_frame (deriveKey newPass nSalt) D w5
  have hsalt6 : (writeAllEncrypted (deriveKey newPass nSalt) D w5).saltStore
      = some nSalt := hfr.1.trans hsaltW
  have hvc6 : alGet vaultCheckKey (writeAllEncrypted (deriveKey newPass nSalt) D w5).db
      = some tok := by
    rw [writeAllEncrypted_absent _ _ _ _ hDvc]; exact htok
  obtain ⟨rec, hrec, hrecdec⟩ :=
    writeAllEncrypted_hit (deriveKey newPass nSalt) D w5 k v hDnodup hDk
  have hne2 : ¬deriveKey newPass nSalt = deriveKey oldPass nSalt := by
    simp only [deriveKey, DerivedKey.mk.injEq]
    exact fun h => hne (h.1.symm)
  refine ⟨?_, ?_, ?_⟩
  · simp [unlock, getSalt, hsalt6, hvc6, decrypt, htokkey, htokiv]
  · have hu : unlock newPass stB (writeAllEncrypted (deriveKey newPass nSalt) D w5)
        = (.ok true,
            ⟨some (deriveKey newPass nSalt), true, [], stB.apiKeyMemory⟩,
            writeAllEncrypted (deriveKey newPass nSalt) D w5) := by
      simp [unlock, getSalt, hsalt6, hvc6, decrypt, htokkey, htokiv]
    rw [hu]
    simp [getItem, alGet, hrec, hrecdec]
  · simp [unlock, getSalt, hsalt6, hvc6, decrypt, htokkey, hne2]

/-- C2: on an unlocked vault, every logical key whose record decrypts under
the current passphrase still yields the same value via `getItem` after
`changePassphrase(old, new)` followed by a fresh `unlock(new)`; and
`unlock(old)` now fails, since rotation regenerated the salt, derived a new
key, rewrote the verification token, and re-encrypted every non-reserved
value under the new key. -/
theorem changePassphrase_preserves_data (old new : String) (st : SecureStorage)
    (w : World) (s : Nat) (vr r : EncryptedRecord) (jv v : Json) (k : String)
    (_hunlocked : st.isUnlocked = true)
    (hsalt : w.saltStore = some s)
    (hvr : alGet vaultCheckKey w.db = some vr)
    (hvrdec : decrypt vr (deriveKey old s) = some jv)
    (hk : ¬k = vaultCheckKey)
    (hkdb : alGet k w.db = some r)
    (hkdec : decrypt r (deriveKey old s) = some v)
    (hlen : ¬new.length < 4)
    (hne : old ≠ new) :
    (changePassphrase old new st w).1 = .ok true ∧
    (unlock new (changePassphrase old new st w).2.1
        (changePassphrase old new st w).2.2).1 = .ok true ∧
    (getItem k
        (unlock new (changePassphrase old new st w).2.1
          (changePassphrase old new st w).2.2).2.1
        (unlock new (changePassphrase old new st w).2.1
          (changePassphrase old new st w).2.2).2.2).1 = .ok (some v) ∧
    (unlock old (changePassphrase old new st w).2.1
        (changePassphrase old new st w).2.2).1 = .error .incorrectPassphrase := by
  have hmem : k ∈ w.db.map Prod.fst := mem_map_fst_of_alGet _ _ _ hkdb
  have hDvc : alGet vaultCheckKey
      (collectDecrypted w.db (deriveKey old s) (w.db.map Prod.fst) []) = none :=
    collectDecrypted_vaultCheck_none _ _ _ _ rfl
  have hDnodup : ((collectDecrypted w.db (deriveKey old s) (w.db.map Prod.fst) []).map
      Prod.fst).Nodup := collectDecrypted_nodup _ _ _ _ (by simp)
  have hDk : alGet k (collectDecrypted w.db (deriveKey old s) (w.db.map Prod.fst) [])
      = some v := alGet_collectDecrypted _ _ _ _ k r v hk hkdb hkdec (Or.inr hmem)
  rw [changePassphrase_eq old new st w s vr jv hsalt hvr hvrdec hlen]
  have hend := rotation_endgame new old
    ⟨some (deriveKey new w.rng), st.isUnlocked,
      collectDecrypted w.db (deriveKey old s) (w.db.map Prod.fst) [],
      st.apiKeyMemory⟩
    ⟨some w.rng, w.legacy,
      alSet vaultCheckKey
        ⟨w.rng + 1, ⟨w.rng + 1, deriveKey new w.rng, verificationPlain w.time⟩⟩ w.db,
      w.rng + 1 + 1, w.time⟩
    (collectDecrypted w.db (deriveKey old s) (w.db.map Prod.fst) [])
    w.rng k v
    ⟨w.rng + 1, ⟨w.rng + 1, deriveKey new w.rng, verificationPlain w.time⟩⟩
    rfl (alGet_alSet_self _ _ _) rfl rfl hDvc hDnodup hDk hne
  exact ⟨rfl, hend.1, hend.2.1, hend.2.2⟩

/-- C9: `changePassphrase` never consults the unlocked flag: on a locked but
initialized vault with the correct current passphrase and a valid new one it
succeeds (no `"Vault is locked"` error), re-encrypts the stored records
under the new key, and leaves the new derived key and the full decrypted
plaintext cache in memory while the unlocked flag stays `false`. -/
theorem changePassphrase_ignores_lock (old new : String) (st : SecureStorage)
    (w : World) (s : Nat) (vr r : EncryptedRecord) (jv v : Json) (k : String)
    (hlock : st.isUnlocked = false)
    (hsalt : w.saltStore = some s)
    (hvr : alGet vaultCheckKey w.db = some vr)
    (hvrdec : decrypt vr (deriveKey old s) = some jv)
    (hk : ¬k = vaultCheckKey)
    (hkdb : alGet k w.db = some r)
    (hkdec : decrypt r (deriveKey old s) = some v)
    (hlen : ¬new.length < 4) :
    (changePassphrase old new st w).1 = .ok true ∧
    (changePassphrase old new st w).2.1.isUnlocked = false ∧
    (changePassphrase old new st w).2.1.derivedKey = some (deriveKey new w.rng) ∧
    (changePassphrase old new st w).2.2.saltStore = some w.rng ∧
    alGet k (changePassphrase old new st w).2.1.memoryCache = some v ∧
    ∃ record, alGet k (changePassphrase old new st w).2.2.db = some record ∧
      decrypt record (deriveKey new w.rng) = some v := by
  have hmem : k ∈ w.db.map Prod.fst := mem_map_fst_of_alGet _ _ _ hkdb
  have hDnodup : ((collectDecrypted w.db (deriveKey old s) (w.db.map Prod.fst) []).map
      Prod.fst).Nodup := collectDecrypted_nodup _ _ _ _ (by simp)
  have hDk : alGet k (collectDecrypted w.db (deriveKey old s) (w.db.map Prod.fst) [])
      = some v := alGet_collectDecrypted _ _ _ _ k r v hk hkdb hkdec (Or.inr hmem)
  rw [changePassphrase_eq old new st w s vr jv hsalt hvr hvrdec hlen]
  refine ⟨rfl, hlock, rfl, ?_, hDk, ?_⟩
  · exact ((writeAllEncrypted_frame _ _ _).1).trans rfl
  · exact writeAllEncrypted_hit _ _ _ k v hDnodup hDk

/-! Sample states used by the closed witnesses. -/

def sampleOldKey : DerivedKey := deriveKey "oldpass" 3

def sampleVr : EncryptedRecord := ⟨0, ⟨0, sampleOldKey, Json.null⟩⟩

def sampleR : EncryptedRecord := ⟨1, ⟨1, sampleOldKey, Json.num 42⟩⟩

def sampleW : World :=
  ⟨some 3, [], [(vaultCheckKey, sampleVr), ("friends", sampleR)], 10, 0⟩

def sampleSt : SecureStorage := ⟨some sampleOldKey, true, [], none⟩

def sampleStLocked : SecureStorage := ⟨some sampleOldKey, false, [], none⟩

/-- Closed witness for `changePassphrase_preserves_data`. -/
theorem changePassphrase_preserves_data_witness :
    (changePassphrase "oldpass" "newpass" sampleSt sampleW).1 = .ok true ∧
    (unlock "newpass" (changePassphrase "oldpass" "newpass" sampleSt sampleW).2.1
        (changePassphrase "oldpass" "newpass" sampleSt sampleW).2.2).1 = .ok true ∧
    (getItem "friends"
        (unlock "newpass" (changePassphrase "oldpass" "newpass" sampleSt sampleW).2.1
          (changePassphrase "oldpass" "newpass" sampleSt sampleW).2.2).2.1
        (unlock "newpass" (changePassphrase "oldpass" "newpass" sampleSt sampleW).2.1
          (changePassphrase "oldpass" "newpass" sampleSt sampleW).2.2).2.2).1
      = .ok (some (Json.num 42)) ∧
    (unlock "oldpass" (changePassphrase "oldpass" "newpass" sampleSt sampleW).2.1
        (changePassphrase "oldpass" "newpass" sampleSt sampleW).2.2).1
      = .error .incorrectPassphrase :=
  changePassphrase_preserves_data "oldpass" "newpass" sampleSt sampleW 3
    sampleVr sampleR Json.null (Json.num 42) "friends"
    rfl rfl rfl rfl (by decide) rfl rfl (by decide) (by decide)

/-- Closed witness for `changePassphrase_ignores_lock`. -/
theorem changePassphrase_ignores_lock_witness :
    (changePassphrase "oldpass" "newpass" sampleStLocked sampleW).1 = .ok true ∧
    (changePassphrase "oldpass" "newpass" sampleStLocked sampleW).2.1.isUnlocked
      = false ∧
    (changePassphrase "oldpass" "newpass" sampleStLocked sampleW).2.1.derivedKey
      = some (deriveKey "newpass" sampleW.rng) ∧
    (changePassphrase "oldpass" "newpass" sampleStLocked sampleW).2.2.saltStore
      = some sampleW.rng ∧
    alGet "friends"
        (changePassphrase "oldpass" "newpass" sampleStLocked sampleW).2.1.memoryCache
      = some (Json.num 42) ∧
    ∃ record,
      alGet "friends"
          (changePassphrase "oldpass" "newpass" sampleStLocked sampleW).2.2.db
        = some record ∧
      decrypt record (deriveKey "newpass" sampleW.rng) = some (Json.num 42) :=
  changePassphrase_ignores_lock "oldpass" "newpass" sampleStLocked sampleW 3
    sampleVr sampleR Json.null (Json.num 42) "friends"
    rfl rfl rfl rfl (by decide) rfl rfl (by decide)

/-- C4: with all five legacy keys populated and the vault uninitialized,
`handleSetup` with migration succeeds; every non-apiKey legacy value is
afterwards retrievable through `getItem` under its new logical key and is
persisted in the encrypted store under the vault key; the five legacy keys
are gone from the legacy store; the API key lives only in `getApiKey()`
memory — `getItem` knows no `apiKey` entry and the encrypted store contains
nothing outside the four migrated keys and the verification token; and the
purge step (`clearOldLocalStorage`) never touches the encrypted store, so
the values are persisted before the purge. -/
theorem migration_completeness (parse : String → Option Json) (pass : String)
    (st : SecureStorage) (w : World) (f pe fo mm ak : String)
    (hf : alGet legacyFriendsKey w.legacy = some f) (hf0 : ¬f = "")
    (hpe : alGet legacyPersonaKey w.legacy = some pe) (hpe0 : ¬pe = "")
    (hfo : alGet legacyFormDataKey w.legacy = some fo) (hfo0 : ¬fo = "")
    (hmm : alGet legacyMockModeKey w.legacy = some mm) (hmm0 : ¬mm = "")
    (hak : alGet legacyApiKeyKey w.legacy = some ak) (hak0 : ¬ak = "")
    (hdb : w.db = []) (hsalt0 : w.saltStore = none)
    (hcache : st.memoryCache = []) (hlen : ¬pass.length < 4) :
    (handleSetup parse pass st w).1 = .ok () ∧
    (getItem "friends" (handleSetup parse pass st w).2.1
        (handleSetup parse pass st w).2.2).1 = .ok (some ((parse f).getD (.str f))) ∧
    (getItem "persona" (handleSetup parse pass st w).2.1
        (handleSetup parse pass st w).2.2).1 = .ok (some ((parse pe).getD (.str pe))) ∧
    (getItem "formData" (handleSetup parse pass st w).2.1
        (handleSetup parse pass st w).2.2).1 = .ok (some ((parse fo).getD (.str fo))) ∧
    (getItem "mockMode" (handleSetup parse pass st w).2.1
        (handleSetup parse pass st w).2.2).1 = .ok (some ((parse mm).getD (.str mm))) ∧
    ((alGet "friends" (handleSetup parse pass st w).2.2.db).map
        (fun record => decrypt record
          ((handleSetup parse pass st w).2.1.derivedKey.getD nullKey)))
      = some (some ((parse f).getD (.str f))) ∧
    alGet legacyFriendsKey (handleSetup parse pass st w).2.2.legacy = none ∧
    alGet legacyPersonaKey (handleSetup parse pass st w).2.2.legacy = none ∧
    alGet legacyFormDataKey (handleSetup parse pass st w).2.2.legacy = none ∧
    alGet legacyMockModeKey (handleSetup parse pass st w).2.2.legacy = none ∧
    alGet legacyApiKeyKey (handleSetup parse pass st w).2.2.legacy = none ∧
    getApiKey (handleSetup parse pass st w).2.1 = some ak ∧
    (getItem "apiKey" (handleSetup parse pass st w).2.1
        (handleSetup parse pass st w).2.2).1 = .ok none ∧
    (∀ q, ¬q = vaultCheckKey → ¬q = "friends" → ¬q = "persona" →
      ¬q = "formData" → ¬q = "mockMode" →
      alGet q (handleSetup parse pass st w).2.2.db = none) ∧
    (∀ w0, (clearOldLocalStorage w0).db = w0.db) := by
  have hf2 : alGet "socialOrbit_friends" w.legacy = some f := hf
  have hpe2 : alGet "socialOrbit_persona" w.legacy = some pe := hpe
  have hfo2 : alGet "socialOrbit_formData" w.legacy = some fo := hfo
  have hmm2 : alGet "socialOrbit_mockMode" w.legacy = some mm := hmm
  have hak2 : alGet "socialOrbit_apiKey" w.legacy = some ak := hak
  refine ⟨?_, ?_, ?_, ?_, ?_, ?_, ?_, ?_, ?_, ?_, ?_, ?_, ?_, ?_, fun w0 => rfl⟩
  all_goals
    first
    | (intro q h1 h2 h3 h4 h5
       have h1s : ¬"_vault_check" = q := fun h => h1 h.symm
       have h2s : ¬"friends" = q := fun h => h2 h.symm
       have h3s : ¬"persona" = q := fun h => h3 h.symm
       have h4s : ¬"formData" = q := fun h => h4 h.symm
       have h5s : ¬"mockMode" = q := fun h => h5 h.symm
       simp [handleSetup, hasOldData, truthy, hf2, hpe2, hfo2, hmm2, hak2,
         hf0, hpe0, hfo0, hmm0, hak0, migrateFromLocalStorage, migrateValues,
         keysToMigrate, legacyFriendsKey, legacyPersonaKey, legacyFormDataKey,
         legacyMockModeKey, legacyApiKeyKey, initializeVault, getSalt, fresh,
         encrypt, decrypt, hlen, hdb, hsalt0, hcache, setItemsAll, setItem,
         getItem, setApiKey, getApiKey, clearOldLocalStorage, vaultCheckKey,
         alSet, alGet_alErase, h1s, h2s, h3s, h4s, h5s])
    | simp [handleSetup, hasOldData, truthy, hf2, hpe2, hfo2, hmm2, hak2,
        hf0, hpe0, hfo0, hmm0, hak0, migrateFromLocalStorage, migrateValues,
        keysToMigrate, legacyFriendsKey, legacyPersonaKey, legacyFormDataKey,
        legacyMockModeKey, legacyApiKeyKey, initializeVault, getSalt, fresh,
        encrypt, decrypt, hlen, hdb, hsalt0, hcache, setItemsAll, setItem,
        getItem, setApiKey, getApiKey, clearOldLocalStorage, vaultCheckKey,
        alSet, alGet_alErase]

/-- A legacy world with all five legacy keys populated, used by the closed
witness of the migration claim. -/
def sampleLegacyW : World :=
  ⟨none,
    [("socialOrbit_friends", "fr"), ("socialOrbit_persona", "pe"),
     ("socialOrbit_formData", "fo"), ("socialOrbit_mockMode", "true"),
     ("socialOrbit_apiKey", "sk-123")],
    [], 0, 0⟩

/-- A `JSON.parse` stand-in that always throws, exercising the raw-string
fallback of the migration. -/
def noParse : String → Option Json := fun _ => none

/-- Closed witness for `migration_completeness`. -/
theorem migration_completeness_witness :
    (handleSetup noParse "newpass1" SecureStorage.init sampleLegacyW).1 = .ok () ∧
    (getItem "friends"
        (handleSetup noParse "newpass1" SecureStorage.init sampleLegacyW).2.1
        (handleSetup noParse "newpass1" SecureStorage.init sampleLegacyW).2.2).1
      = .ok (some (Json.str "fr")) ∧
    alGet legacyFriendsKey
        (handleSetup noParse "newpass1" SecureStorage.init sampleLegacyW).2.2.legacy
      = none ∧
    getApiKey (handleSetup noParse "newpass1" SecureStorage.init sampleLegacyW).2.1
      = some "sk-123" ∧
    (getItem "apiKey"
        (handleSetup noParse "newpass1" SecureStorage.init sampleLegacyW).2.1
        (handleSetup noParse "newpass1" SecureStorage.init sampleLegacyW).2.2).1
      = .ok none ∧
    alGet "secret"
        (handleSetup noParse "newpass1" SecureStorage.init sampleLegacyW).2.2.db
      = none := by
  obtain ⟨a1, a2, a3, a4, a5, a6, a7, a8, a9, a10, a11, a12, a13, a14, a15⟩ :=
    migration_completeness noParse "newpass1" SecureStorage.init sampleLegacyW
      "fr" "pe" "fo" "true" "sk-123"
      rfl (by decide) rfl (by decide) rfl (by decide) rfl (by decide) rfl (by decide)
      rfl rfl rfl (by decide)
  exact ⟨a1, a2, a7, a12, a13,
    a14 "secret" (by decide) (by decide) (by decide) (by decide) (by decide)⟩

end SocialOrbit
